import Mathlib

/-!
# Verification of the go-escape-ai command/state engine

This file gives a shallow embedding of the escape-room engine of the
go-escape-ai repository (the richer engine variant, the one with the
declarative Action/Condition/Effect system and progressive hints) and
proves properties of its command handlers, its action engine and its
puzzle and hint evaluators.

Modelling notes:
- Go methods on `Engine` become functions on an explicit `GameState` value;
  in-place mutation becomes state passing.
- Go `GetRoom`, `GetItem`, `GetPuzzle` return `(pointer, error)`; the model
  returns `Option`.
- A handler in Go can (a) return normally, (b) return a non-nil `error`, or
  (c) dereference a nil pointer obtained from a failed lookup whose error
  was discarded, which panics at runtime.  The model makes the three
  outcomes explicit in `ExecResult` (`ok`, `gerr`, `panicked`).
- `time.Time` has no shallow embedding; the session start time is dropped
  from the state and the whole-minutes-elapsed value that Go computes with
  `int(time.Since(StartTime).Minutes())` is passed as an explicit `Int`
  parameter to the hint evaluator.
- Go `int` counters are modelled as `Int` (no overflow is relevant here).
- Go map types (`Hints`, `FailedAttempts`) are modelled as association
  lists; a missing key yields the Go zero value.
- `strings.ToLower`, `strings.EqualFold` and `strings.TrimSpace` are
  modelled with ASCII case mapping, which agrees with Go on all the data
  the engine manipulates.
-/

namespace GoEscape

/-! ## String primitives (models of the Go strings package functions used) -/

/-- Model of `strings.ToLower` (ASCII case mapping). -/
def toLower (s : String) : String := String.mk (s.data.map Char.toLower)

/-- Infix test on character lists (used to model `strings.Contains`). -/
def listInfix (needle : List Char) : List Char → Bool
  | [] => needle.isEmpty
  | c :: rest => needle.isPrefixOf (c :: rest) || listInfix needle rest

/-- Model of `strings.Contains s sub`: `sub` occurs as a contiguous
substring of `s`. -/
def containsSubstr (s sub : String) : Bool := listInfix sub.toList s.toList

/-- Model of `strings.EqualFold` (case-insensitive equality). -/
def equalFold (a b : String) : Bool := toLower a == toLower b

/-- Accumulator loop of `strFields` (structural recursion so the kernel
can evaluate it). -/
def fieldsAux : List Char → List Char → List String
  | acc, [] => if acc.isEmpty then [] else [String.mk acc.reverse]
  | acc, c :: cs =>
    if c.isWhitespace then
      if acc.isEmpty then fieldsAux [] cs
      else String.mk acc.reverse :: fieldsAux [] cs
    else fieldsAux (c :: acc) cs

/-- Model of `strings.Fields`: split on whitespace runs, dropping empties. -/
def strFields (s : String) : List String := fieldsAux [] s.data

/-- Fuel-driven loop of `splitOnStr`: cut at each leftmost occurrence of
the separator (the fuel, one unit per consumed character, keeps the
recursion structural). -/
def splitOnAux (sep : List Char) : Nat → List Char → List Char → List (List Char)
  | 0, acc, rest => [acc.reverse ++ rest]
  | _ + 1, acc, [] => [acc.reverse]
  | fuel + 1, acc, c :: cs =>
    if sep.isPrefixOf (c :: cs) then
      acc.reverse :: splitOnAux sep fuel [] (List.drop (sep.length - 1) cs)
    else splitOnAux sep fuel (c :: acc) cs

/-- Model of `strings.Split` for a non-empty separator. -/
def splitOnStr (s sep : String) : List String :=
  (splitOnAux sep.data (s.data.length + 1) [] s.data).map String.mk

/-- Model of `strings.TrimSpace`. -/
def trimStr (s : String) : String :=
  String.mk (((s.data.dropWhile Char.isWhitespace).reverse.dropWhile Char.isWhitespace).reverse)

/-! ## Data model (from game/scenario.go) -/

structure Room where
  ID : String
  Name : String
  Description : String
  Items : List String
  Puzzles : List String
  Exits : List String
  Locked : Bool
  UnlockKey : String
deriving DecidableEq

structure Item where
  ID : String
  Name : String
  Description : String
  Usable : Bool
  UseWith : String
  Hidden : Bool
  RevealedBy : String
deriving DecidableEq

structure Puzzle where
  ID : String
  Name : String
  Description : String
  Solution : String
  RequiredItems : List String
  Reward : String
  Solved : Bool
deriving DecidableEq

structure ActionTrigger where
  Typ : String
  Target : String
  With : String
deriving DecidableEq

structure ActionCondition where
  Typ : String
  Value : String
deriving DecidableEq

structure ActionEffect where
  Typ : String
  Target : String
  Value : String
deriving DecidableEq

structure Action where
  ID : String
  Trigger : ActionTrigger
  Conditions : List ActionCondition
  Effects : List ActionEffect
  Message : String
  OneTimeOnly : Bool
deriving DecidableEq

structure HintTrigger where
  Typ : String
  Threshold : Int
deriving DecidableEq

structure ProgressiveHint where
  Context : String
  Triggers : List HintTrigger
  HintText : String
  Priority : Int
deriving DecidableEq

structure Scenario where
  Theme : String
  Setting : String
  BackStory : String
  Rooms : List Room
  Items : List Item
  Puzzles : List Puzzle
  Actions : List Action
  WinCondition : String
  Hints : List (String × String)
  ProgressiveHints : List ProgressiveHint
deriving DecidableEq

/-- Model of `Scenario.GetRoom`: first room with the given id, if any. -/
def GetRoom (sc : Scenario) (id : String) : Option Room :=
  sc.Rooms.find? (fun r => r.ID == id)

/-- Model of `Scenario.GetItem`. -/
def GetItem (sc : Scenario) (id : String) : Option Item :=
  sc.Items.find? (fun i => i.ID == id)

/-- Model of `Scenario.GetPuzzle`. -/
def GetPuzzle (sc : Scenario) (id : String) : Option Puzzle :=
  sc.Puzzles.find? (fun p => p.ID == id)

/-! ## Game state (from game/engine.go, the action-engine variant) -/

structure GameState where
  Scenario : Scenario
  CurrentRoom : String
  Inventory : List String
  SolvedPuzzles : List String
  DiscoveredItems : List String
  PerformedActions : List String
  FailedAttempts : List (String × Int)
  CommandAttempts : Int
  Moves : Int
  GameWon : Bool
  LastAction : String
  LastResult : String
deriving DecidableEq

/-- Outcome of running a handler: normal return, a returned Go `error`
(with the state as mutated so far), or a runtime panic (nil pointer
dereference after a discarded lookup error). -/
inductive ExecResult where
  | ok (s : GameState)
  | gerr (s : GameState) (msg : String)
  | panicked
deriving DecidableEq

/-- State carried by a non-panicking outcome. -/
def resState : ExecResult → Option GameState
  | .ok s => some s
  | .gerr s _ => some s
  | .panicked => none

/-- Model of `Engine.HasItem`. -/
def HasItem (s : GameState) (itemID : String) : Bool :=
  s.Inventory.any (fun x => x == itemID)

/-- Model of `Engine.IsPuzzleSolved`. -/
def IsPuzzleSolved (s : GameState) (puzzleID : String) : Bool :=
  s.SolvedPuzzles.any (fun x => x == puzzleID)

/-- Model of `Engine.IsItemDiscovered`. -/
def IsItemDiscovered (s : GameState) (itemID : String) : Bool :=
  s.DiscoveredItems.any (fun x => x == itemID)

/-- Model of `Engine.hasPerformedAction`. -/
def hasPerformedAction (s : GameState) (actionID : String) : Bool :=
  s.PerformedActions.any (fun x => x == actionID)

/-- Model of `NewEngine` (start in the first room; Go panics on an empty
room list, modelled as `none`). -/
def NewEngine (sc : Scenario) : Option GameState :=
  match sc.Rooms with
  | [] => none
  | r :: _ => some
      { Scenario := sc, CurrentRoom := r.ID, Inventory := [],
        SolvedPuzzles := [], DiscoveredItems := [], PerformedActions := [],
        FailedAttempts := [], CommandAttempts := 0, Moves := 0,
        GameWon := false, LastAction := "", LastResult := "" }

/-! ## Built-in verb handlers -/

/-- Item loop of `handleLook` with an argument: first room item that
resolves, whose (lowercased) name contains the target and is not hidden,
yields its description; otherwise the not-found message. -/
def lookLoop (s : GameState) (target : String) : List String → ExecResult
  | [] => .ok {s with LastResult := "You don\'t see that here."}
  | itemID :: rest =>
    match GetItem s.Scenario itemID with
    | none => lookLoop s target rest
    | some item =>
      if containsSubstr (toLower item.Name) target && !item.Hidden then
        .ok {s with LastResult := item.Description}
      else lookLoop s target rest

/-- Model of `Engine.handleLook`.  With no argument it returns the current
room description (propagating the lookup error).  With an argument it
first checks the room description for the target (generic examine
message), then scans the room items; the current-room lookup error is
discarded in Go and the subsequent field access panics. -/
def handleLook (s : GameState) (args : List String) : ExecResult :=
  if args.isEmpty then
    match GetRoom s.Scenario s.CurrentRoom with
    | none => .gerr s ("room " ++ s.CurrentRoom ++ " not found")
    | some room => .ok {s with LastResult := room.Description}
  else
    let target := " ".intercalate args
    match GetRoom s.Scenario s.CurrentRoom with
    | none => .panicked
    | some room =>
      if containsSubstr (toLower room.Description) (toLower target) then
        .ok {s with LastResult :=
          "You examine the " ++ target ++ " more closely, but don\'t notice anything special."}
      else lookLoop s target room.Items

/-- Item loop of `handleTake`. -/
def takeLoop (s : GameState) (target : String) : List String → ExecResult
  | [] => .ok {s with LastResult := "You don\'t see that here."}
  | itemID :: rest =>
    match GetItem s.Scenario itemID with
    | none => takeLoop s target rest
    | some item =>
      if containsSubstr (toLower item.Name) target && !item.Hidden then
        if !HasItem s itemID then
          .ok {s with Inventory := s.Inventory ++ [itemID],
                      LastResult := "You take the " ++ item.Name ++ "."}
        else .ok {s with LastResult := "You already have that."}
      else takeLoop s target rest

/-- Model of `Engine.handleTake`. -/
def handleTake (s : GameState) (args : List String) : ExecResult :=
  if args.isEmpty then .ok {s with LastResult := "Take what?"}
  else
    match GetRoom s.Scenario s.CurrentRoom with
    | none => .panicked
    | some room => takeLoop s (" ".intercalate args) room.Items

/-- Inventory loop of `handleUse` for a single-item use. -/
def useLoop (s : GameState) (target : String) : List String → ExecResult
  | [] => .ok {s with LastResult := "You don\'t have that item or can\'t use it."}
  | itemID :: rest =>
    match GetItem s.Scenario itemID with
    | none => useLoop s target rest
    | some item =>
      if containsSubstr (toLower item.Name) target && item.Usable then
        .ok {s with LastResult := "You use the " ++ item.Name ++ "."}
      else useLoop s target rest

/-- Inventory search of `handleItemCombination` (no hidden check). -/
def combInvLoop (sc : Scenario) (name : String) : List String → Option (String × Item)
  | [] => none
  | itemID :: rest =>
    match GetItem sc itemID with
    | none => combInvLoop sc name rest
    | some item =>
      if containsSubstr (toLower item.Name) name then some (itemID, item)
      else combInvLoop sc name rest

/-- Room search of `handleItemCombination` for the second item (requires
the item not hidden). -/
def combRoomLoop (sc : Scenario) (name : String) : List String → Option (String × Item)
  | [] => none
  | itemID :: rest =>
    match GetItem sc itemID with
    | none => combRoomLoop sc name rest
    | some item =>
      if containsSubstr (toLower item.Name) name && !item.Hidden then some (itemID, item)
      else combRoomLoop sc name rest

/-- Tail of `handleItemCombination` once both searches are done: nil
checks, the hard-coded matches+candle rule (which appends `lit_candle`
unconditionally and reveals items with `RevealedBy = "use_matches"`), the
declarative `UseWith` check, and the failure message. -/
def combFinish (s : GameState) (item1Name item2Name : String)
    (r1 r2 : Option (String × Item)) : ExecResult :=
  match r1 with
  | none => .ok {s with LastResult := "You don\'t have " ++ item1Name ++ "."}
  | some (id1, it1) =>
    match r2 with
    | none => .ok {s with LastResult := "You don\'t see " ++ item2Name ++ " here."}
    | some (id2, it2) =>
      if id1 == "matches" && id2 == "candle" then
        let revealed := s.Scenario.Items.map
          (fun it => if it.RevealedBy == "use_matches" then {it with Hidden := false} else it)
        .ok {s with
              Inventory := s.Inventory ++ ["lit_candle"],
              LastResult :=
                "You light the candle with the matches. The room is now brightly illuminated!",
              Scenario := {s.Scenario with Items := revealed}}
      else if it1.UseWith == id2 then
        .ok {s with LastResult := "You use the " ++ it1.Name ++ " with the " ++ it2.Name ++ "."}
      else
        .ok {s with LastResult := "You can\'t use the " ++ it1.Name ++ " with the " ++ it2.Name ++ "."}

/-- Model of `Engine.handleItemCombination`.  The first item is searched
in the inventory only; the second in the inventory, then (if absent) among
the non-hidden items of the current room, where the discarded current-room
lookup error leads to a panic on a dangling current-room id. -/
def handleItemCombination (s : GameState) (item1Name item2Name : String) : ExecResult :=
  let r1 := combInvLoop s.Scenario item1Name s.Inventory
  match combInvLoop s.Scenario item2Name s.Inventory with
  | some r2 => combFinish s item1Name item2Name r1 (some r2)
  | none =>
    match GetRoom s.Scenario s.CurrentRoom with
    | none => .panicked
    | some room =>
      combFinish s item1Name item2Name r1 (combRoomLoop s.Scenario item2Name room.Items)

/-- Split of a `use` target into combination parts: split on `" with "`,
falling back to `" on "` when the first split found nothing. -/
def useSplit (target : String) : List String :=
  if (splitOnStr target " with ").length == 1 then splitOnStr target " on "
  else splitOnStr target " with "

/-- Model of `Engine.handleUse`.  A target containing `" with "` or
`" on "` that splits into exactly two parts goes to the combination
handler; everything else is a single-item use over the inventory. -/
def handleUse (s : GameState) (args : List String) : ExecResult :=
  if args.isEmpty then .ok {s with LastResult := "Use what?"}
  else
    let target := " ".intercalate args
    if containsSubstr target " with " || containsSubstr target " on " then
      match useSplit target with
      | [a, b] => handleItemCombination s (trimStr a) (trimStr b)
      | _ => useLoop s target s.Inventory
    else useLoop s target s.Inventory

/-- Exit loop of `handleMove`: first exit that resolves and whose room
name or id contains the direction; locked rooms require the unlock key. -/
def moveLoop (s : GameState) (direction : String) : List String → ExecResult
  | [] => .ok {s with LastResult := "You can\'t go that way."}
  | exitID :: rest =>
    match GetRoom s.Scenario exitID with
    | none => moveLoop s direction rest
    | some exitRoom =>
      if containsSubstr (toLower exitRoom.Name) direction ||
         containsSubstr (toLower exitID) direction then
        if exitRoom.Locked && (exitRoom.UnlockKey == "" || !HasItem s exitRoom.UnlockKey) then
          .ok {s with LastResult := "That way is locked."}
        else
          .ok {s with CurrentRoom := exitID,
                      LastResult := "You move to " ++ exitRoom.Name ++ "."}
      else moveLoop s direction rest

/-- Model of `Engine.handleMove`. -/
def handleMove (s : GameState) (args : List String) : ExecResult :=
  if args.isEmpty then .ok {s with LastResult := "Go where?"}
  else
    match GetRoom s.Scenario s.CurrentRoom with
    | none => .panicked
    | some room => moveLoop s (" ".intercalate args) room.Exits

/-- Model of `Engine.handleInventory`. -/
def handleInventory (s : GameState) : ExecResult :=
  if s.Inventory.isEmpty then .ok {s with LastResult := "Your inventory is empty."}
  else
    let items := s.Inventory.filterMap (fun id => (GetItem s.Scenario id).map (fun i => i.Name))
    .ok {s with LastResult := "You have: " ++ ", ".intercalate items}

/-- Puzzle loop of `handleSolve`: skip unresolvable and already-solved
puzzle ids; for the first remaining candidate require all its items, then
compare the answer case-insensitively; all three outcomes stop the loop. -/
def solveLoop (s : GameState) (answer : String) : List String → ExecResult
  | [] => .ok {s with LastResult := "There\'s no puzzle here to solve."}
  | puzzleID :: rest =>
    match GetPuzzle s.Scenario puzzleID with
    | none => solveLoop s answer rest
    | some puzzle =>
      if IsPuzzleSolved s puzzleID then solveLoop s answer rest
      else
        if !(puzzle.RequiredItems.all (fun r => HasItem s r)) then
          .ok {s with LastResult := "You don\'t have everything needed to solve this puzzle."}
        else if equalFold answer puzzle.Solution then
          let s1 := {s with SolvedPuzzles := s.SolvedPuzzles ++ [puzzleID],
                            LastResult := "Correct! " ++ puzzle.Reward}
          .ok (if s1.Scenario.Puzzles.length ≤ s1.SolvedPuzzles.length
               then {s1 with GameWon := true} else s1)
        else .ok {s with LastResult := "That\'s not correct."}

/-- Model of `Engine.handleSolve`. -/
def handleSolve (s : GameState) (args : List String) : ExecResult :=
  if args.isEmpty then .ok {s with LastResult := "Solve what?"}
  else
    match GetRoom s.Scenario s.CurrentRoom with
    | none => .panicked
    | some room => solveLoop s (" ".intercalate args) room.Puzzles

/-- Model of `Engine.handleHint` (the flat per-room hint). -/
def handleHint (s : GameState) (_args : List String) : ExecResult :=
  match GetRoom s.Scenario s.CurrentRoom with
  | none => .panicked
  | some room =>
    match s.Scenario.Hints.lookup room.ID with
    | some h => .ok {s with LastResult := h}
    | none => .ok {s with LastResult := "No hints available for this location."}

/-! ## Action/Condition/Effect engine -/

/-- Model of `Engine.matchesAction`: trigger type equality, then substring
containment of the declared target in the supplied target (both
lowercased), then the optional `with` containment. -/
def matchesAction (a : Action) (actionType target withItem : String) : Bool :=
  if a.Trigger.Typ != actionType then false
  else if !(containsSubstr (toLower target) (toLower a.Trigger.Target)) then false
  else if a.Trigger.With != "" &&
          !(containsSubstr (toLower withItem) (toLower a.Trigger.With)) then false
  else true

/-- One condition of `Engine.checkActionConditions`; an unknown condition
type passes (the Go switch has no default). -/
def condHolds (s : GameState) (c : ActionCondition) : Bool :=
  if c.Typ == "has_item" then HasItem s c.Value
  else if c.Typ == "in_room" then s.CurrentRoom == c.Value
  else if c.Typ == "puzzle_solved" then IsPuzzleSolved s c.Value
  else if c.Typ == "action_performed" then hasPerformedAction s c.Value
  else true

/-- Model of `Engine.checkActionConditions` (AND semantics). -/
def checkActionConditions (s : GameState) (conds : List ActionCondition) : Bool :=
  conds.all (condHolds s)

/-- Set the Hidden flag of the first item with the given id (the Go loop
breaks after the first match). -/
def setItemHidden (hidden : Bool) (target : String) : List Item → List Item
  | [] => []
  | it :: rest =>
    if it.ID == target then {it with Hidden := hidden} :: rest
    else it :: setItemHidden hidden target rest

/-- Clear the Locked flag of the first room with the given id. -/
def setRoomUnlocked (target : String) : List Room → List Room
  | [] => []
  | r :: rest =>
    if r.ID == target then {r with Locked := false} :: rest
    else r :: setRoomUnlocked target rest

/-- Remove the first occurrence of an element (the Go loop breaks after
the first removal). -/
def removeFirst (target : String) : List String → List String
  | [] => []
  | x :: rest => if x == target then rest else x :: removeFirst target rest

/-- One effect of `Engine.executeActionEffects`; an unknown effect type is
a no-op. -/
def applyEffect (s : GameState) (eff : ActionEffect) : GameState :=
  if eff.Typ == "reveal_item" then
    {s with Scenario := {s.Scenario with Items := setItemHidden false eff.Target s.Scenario.Items}}
  else if eff.Typ == "hide_item" then
    {s with Scenario := {s.Scenario with Items := setItemHidden true eff.Target s.Scenario.Items}}
  else if eff.Typ == "unlock_room" then
    {s with Scenario := {s.Scenario with Rooms := setRoomUnlocked eff.Target s.Scenario.Rooms}}
  else if eff.Typ == "add_inventory" then
    if !HasItem s eff.Target then {s with Inventory := s.Inventory ++ [eff.Target]} else s
  else if eff.Typ == "remove_inventory" then
    {s with Inventory := removeFirst eff.Target s.Inventory}
  else s

/-- Model of `Engine.executeActionEffects` (effects in declared order). -/
def executeActionEffects (s : GameState) (effects : List ActionEffect) : GameState :=
  effects.foldl applyEffect s

/-- Message step of a firing action: a non-empty message becomes the
result. -/
def setMessage (a : Action) (s : GameState) : GameState :=
  if a.Message != "" then {s with LastResult := a.Message} else s

/-- Recording step of a firing action: a one-time-only action appends its
id to the performed-actions list. -/
def recordFired (a : Action) (s : GameState) : GameState :=
  if a.OneTimeOnly then {s with PerformedActions := s.PerformedActions ++ [a.ID]} else s

/-- Body of the `Engine.processActions` loop when an action fires: run the
effects in order, set the message, record the id if one-time-only. -/
def fireAction (s : GameState) (a : Action) : GameState :=
  recordFired a (setMessage a (executeActionEffects s a.Effects))

/-- One iteration of the `Engine.processActions` loop: a matching action
is skipped when one-time-only and already performed; when its conditions
hold it fires and the fired flag is set. -/
def processOneAction (ty tgt w : String) : GameState × Bool → Action → GameState × Bool
  | (s, fired), a =>
    if matchesAction a ty tgt w then
      if a.OneTimeOnly && hasPerformedAction s a.ID then (s, fired)
      else if checkActionConditions s a.Conditions then (fireAction s a, true)
      else (s, fired)
    else (s, fired)

/-- Model of `Engine.processActions`: every declared action is evaluated,
in order; the Bool reports whether any action fired. -/
def processActions (s : GameState) (ty tgt w : String) : GameState × Bool :=
  s.Scenario.Actions.foldl (processOneAction ty tgt w) (s, false)

/-! ## Progressive hint evaluator -/

/-- Zero-defaulting lookup in the failed-attempts map. -/
def lookupFA (m : List (String × Int)) (k : String) : Int :=
  match m.lookup k with
  | some v => v
  | none => 0

/-- One trigger check of `Engine.shouldShowHint`; `elapsedMinutes` stands
for the Go expression `int(time.Since(StartTime).Minutes())`. -/
def hintTriggerSat (s : GameState) (elapsedMinutes : Int) (ctx : String)
    (t : HintTrigger) : Bool :=
  if t.Typ == "failed_attempts" then decide (t.Threshold ≤ lookupFA s.FailedAttempts ctx)
  else if t.Typ == "time_spent" then decide (t.Threshold ≤ elapsedMinutes)
  else if t.Typ == "commands_tried" then decide (t.Threshold ≤ s.CommandAttempts)
  else false

/-- Model of `Engine.shouldShowHint`.  Context match: the current room id,
or an unsolved puzzle of the current room (the latter check dereferences
the discarded current-room lookup, hence `none` on a dangling id); then
any satisfied trigger makes the hint eligible. -/
def shouldShowHint (s : GameState) (elapsedMinutes : Int) (hint : ProgressiveHint) :
    Option Bool :=
  let ctxM : Option Bool :=
    if hint.Context == s.CurrentRoom then some true
    else
      match GetRoom s.Scenario s.CurrentRoom with
      | none => none
      | some room =>
        some (room.Puzzles.any (fun pid => hint.Context == pid && !IsPuzzleSolved s pid))
  match ctxM with
  | none => none
  | some false => some false
  | some true => some (hint.Triggers.any (hintTriggerSat s elapsedMinutes hint.Context))

/-- Loop of `Engine.GetProgressiveHints`, keeping declaration order. -/
def hintsLoop (s : GameState) (elapsedMinutes : Int) : List ProgressiveHint → Option (List String)
  | [] => some []
  | h :: rest =>
    match shouldShowHint s elapsedMinutes h with
    | none => none
    | some b =>
      match hintsLoop s elapsedMinutes rest with
      | none => none
      | some hs => some (if b then h.HintText :: hs else hs)

/-- Model of `Engine.GetProgressiveHints`. -/
def GetProgressiveHints (s : GameState) (elapsedMinutes : Int) : Option (List String) :=
  hintsLoop s elapsedMinutes s.Scenario.ProgressiveHints

/-- Model of `Engine.IsGameWon`. -/
def IsGameWon (s : GameState) : Bool := s.GameWon

/-! ## Command interpreter -/

/-- Action-engine calls made after `handleUse` in the `use` branch of
`ProcessCommand`: the `use X with Y` and `use X on Y` forms fire
`use_with` triggers, a plain use fires `use` triggers, and a combination
phrase that does not split into exactly two parts fires nothing. -/
def usePost (s : GameState) (target : String) : GameState :=
  if containsSubstr target " with " || containsSubstr target " on " then
    match useSplit target with
    | [a, b] => (processActions s "use_with" (trimStr a) (trimStr b)).1
    | _ => s
  else (processActions s "use" target "").1

/-- Verb dispatch of `Engine.ProcessCommand` (run on the state whose
counters are already bumped).  The examine verbs run the action engine
first and fall back to `handleLook`; take and use run their handler first
and the action engine after. -/
def dispatchVerb (s1 : GameState) : List String → ExecResult
  | [] => .gerr s1 "empty command"
  | verb :: rest =>
    if verb == "look" || verb == "examine" then
      let target := " ".intercalate rest
      let pa := processActions s1 "examine" target ""
      if !pa.2 then handleLook pa.1 rest else .ok pa.1
    else if verb == "take" || verb == "get" || verb == "pick" then
      let target := " ".intercalate rest
      match handleTake s1 rest with
      | .panicked => .panicked
      | .ok s2 => .ok (processActions s2 "take" target "").1
      | .gerr s2 m => .gerr (processActions s2 "take" target "").1 m
    else if verb == "use" then
      let target := " ".intercalate rest
      match handleUse s1 rest with
      | .panicked => .panicked
      | .ok s2 => .ok (usePost s2 target)
      | .gerr s2 m => .gerr (usePost s2 target) m
    else if verb == "go" || verb == "move" || verb == "walk" then handleMove s1 rest
    else if verb == "inventory" || verb == "inv" || verb == "i" then handleInventory s1
    else if verb == "solve" then handleSolve s1 rest
    else if verb == "hint" then handleHint s1 rest
    else .ok {s1 with LastResult := "I don\'t understand that command."}

/-- Model of `Engine.ProcessCommand`: bump the counters, record the raw
command, lowercase and split into fields, then dispatch on the verb. -/
def ProcessCommand (s : GameState) (command : String) : ExecResult :=
  dispatchVerb
    {s with Moves := s.Moves + 1, CommandAttempts := s.CommandAttempts + 1,
            LastAction := command}
    (strFields (toLower command))

/-! ## Concrete world definitions and states used as test inputs -/

/-- One-time examine action of the demonstration scenario: reveals the
hidden key. -/
def demoDeskAction : Action :=
  { ID := "examine_desk",
    Trigger := { Typ := "examine", Target := "desk", With := "" },
    Conditions := [],
    Effects := [{ Typ := "reveal_item", Target := "key1", Value := "" }],
    Message := "A drawer slides open.", OneTimeOnly := true }

/-- Progressive hint of the demonstration scenario, keyed on the study and
triggered by the third command. -/
def demoHint : ProgressiveHint :=
  { Context := "study",
    Triggers := [{ Typ := "commands_tried", Threshold := 3 }],
    HintText := "Examine the desk.", Priority := 1 }

/-- Study room of the demonstration scenario. -/
def demoStudy : Room :=
  { ID := "study", Name := "Study", Description := "A quiet study.",
    Items := ["compass", "key1"], Puzzles := ["p1", "p2"],
    Exits := ["vault"], Locked := false, UnlockKey := "" }

/-- Locked vault of the demonstration scenario. -/
def demoVault : Room :=
  { ID := "vault", Name := "Vault Room", Description := "A vault.",
    Items := [], Puzzles := [], Exits := [], Locked := true,
    UnlockKey := "key1" }

/-- Visible compass item. -/
def demoCompass : Item :=
  { ID := "compass", Name := "brass compass",
    Description := "An antique compass.", Usable := true,
    UseWith := "", Hidden := false, RevealedBy := "" }

/-- Hidden key item, revealed by the examine action. -/
def demoKey : Item :=
  { ID := "key1", Name := "small key", Description := "A small key.",
    Usable := true, UseWith := "", Hidden := true,
    RevealedBy := "examine_desk" }

/-- First demonstration puzzle (needs the compass). -/
def demoP1 : Puzzle :=
  { ID := "p1", Name := "First", Description := "",
    Solution := "twelve", RequiredItems := ["compass"],
    Reward := "A panel opens.", Solved := false }

/-- Second demonstration puzzle. -/
def demoP2 : Puzzle :=
  { ID := "p2", Name := "Second", Description := "",
    Solution := "two", RequiredItems := [], Reward := "Done.",
    Solved := false }

/-- Small demonstration scenario: a study with a visible compass, a hidden
key revealed by a one-time examine action, two puzzles, and a locked vault
whose unlock key is the hidden key. -/
def demoScen : Scenario :=
  { Theme := "demo", Setting := "study", BackStory := "",
    Rooms := [demoStudy, demoVault],
    Items := [demoCompass, demoKey],
    Puzzles := [demoP1, demoP2],
    Actions := [demoDeskAction],
    WinCondition := "", Hints := [("study", "Check the desk.")],
    ProgressiveHints := [demoHint] }

/-- Session state in the study holding the compass. -/
def demoState : GameState :=
  { Scenario := demoScen, CurrentRoom := "study", Inventory := ["compass"],
    SolvedPuzzles := [], DiscoveredItems := [], PerformedActions := [],
    FailedAttempts := [], CommandAttempts := 0, Moves := 0,
    GameWon := false, LastAction := "", LastResult := "" }

/-- Same state after the one-time examine action has been performed. -/
def demoPerformed : GameState := {demoState with PerformedActions := ["examine_desk"]}

/-- Study variant whose description mentions the compass item by name. -/
def lookStudy : Room :=
  { ID := "study", Name := "Study",
    Description := "There is a compass here.",
    Items := ["compass", "key1"], Puzzles := [], Exits := [],
    Locked := false, UnlockKey := "" }

/-- Scenario whose room description mentions the compass item by name. -/
def lookScen : Scenario :=
  {demoScen with Rooms := [lookStudy], Actions := []}

/-- Session state for the room-description look test. -/
def lookState : GameState := {demoState with Scenario := lookScen}

/-- Scenario with the matches/candle/lit-candle item family and no
declarative actions. -/
def candleScen : Scenario :=
  {demoScen with
    Rooms :=
      [ { ID := "study", Name := "Study", Description := "A quiet study.",
          Items := [], Puzzles := [], Exits := [], Locked := false,
          UnlockKey := "" } ],
    Items :=
      [ { ID := "matches", Name := "matches", Description := "Matches.",
          Usable := true, UseWith := "", Hidden := false, RevealedBy := "" },
        { ID := "candle", Name := "candle", Description := "A candle.",
          Usable := true, UseWith := "", Hidden := false, RevealedBy := "" },
        { ID := "lit_candle", Name := "lit candle", Description := "A lit candle.",
          Usable := true, UseWith := "", Hidden := false, RevealedBy := "" } ],
    Puzzles := [], Actions := []}

/-- State already holding matches, the candle and a lit candle. -/
def candleState : GameState :=
  {demoState with Scenario := candleScen,
                  Inventory := ["matches", "candle", "lit_candle"]}

/-- State whose current-room id resolves to no room of its scenario. -/
def danglingState : GameState :=
  {demoState with Scenario := {demoScen with Actions := []},
                  CurrentRoom := "nowhere"}

/-! ## Predicates characterising the first hit of the handler loops -/

/-- Predicate selecting the room item the look/take loops act on: the id
resolves, the (lowercased) item name contains the target, and the item is
not hidden. -/
def itemMatches (sc : Scenario) (target id : String) : Bool :=
  match GetItem sc id with
  | none => false
  | some item => containsSubstr (toLower item.Name) target && !item.Hidden

/-- Predicate selecting the exit the move loop acts on: the id resolves
and the room name or the id contains the direction. -/
def exitMatches (sc : Scenario) (direction eid : String) : Bool :=
  match GetRoom sc eid with
  | none => false
  | some room =>
    containsSubstr (toLower room.Name) direction || containsSubstr (toLower eid) direction

/-- Predicate selecting the puzzle the solve loop acts on: the id resolves
and the puzzle is not yet in the solved set. -/
def solveCandidate (s : GameState) (pid : String) : Bool :=
  (GetPuzzle s.Scenario pid).isSome && !IsPuzzleSolved s pid

/-! ## Frame relations -/

/-- Fields a plain verb handler leaves untouched. -/
def HFrame (s t : GameState) : Prop :=
  t.PerformedActions = s.PerformedActions ∧ t.GameWon = s.GameWon ∧
  t.SolvedPuzzles = s.SolvedPuzzles ∧ t.Scenario.Puzzles = s.Scenario.Puzzles

/-- Fields the action engine preserves (the performed-action set may only
grow). -/
def PAFrame (s t : GameState) : Prop :=
  (∀ id, id ∈ s.PerformedActions → id ∈ t.PerformedActions) ∧
  t.GameWon = s.GameWon ∧ t.SolvedPuzzles = s.SolvedPuzzles ∧
  t.Scenario.Puzzles = s.Scenario.Puzzles

/-- What an arbitrary command preserves: performed actions only grow, the
puzzle list of the world definition is untouched, and the game-won flag is
true afterwards exactly when it was already true or a new solve reached
the total puzzle count. -/
def CmdPres (s t : GameState) : Prop :=
  (∀ id, id ∈ s.PerformedActions → id ∈ t.PerformedActions) ∧
  t.Scenario.Puzzles = s.Scenario.Puzzles ∧
  (t.GameWon = true ↔ (s.GameWon = true ∨
     (s.SolvedPuzzles.length < t.SolvedPuzzles.length ∧
      t.Scenario.Puzzles.length ≤ t.SolvedPuzzles.length)))

/-! ## Basic frame lemmas -/

theorem hframe_refl (s : GameState) : HFrame s s := ⟨rfl, rfl, rfl, rfl⟩

theorem hframe_trans {s t u : GameState} (h1 : HFrame s t) (h2 : HFrame t u) :
    HFrame s u := by
  obtain ⟨a1, b1, c1, d1⟩ := h1
  obtain ⟨a2, b2, c2, d2⟩ := h2
  exact ⟨a2.trans a1, b2.trans b1, c2.trans c1, d2.trans d1⟩

theorem paframe_of_hframe {s t : GameState} (h : HFrame s t) : PAFrame s t := by
  obtain ⟨a, b, c, d⟩ := h
  exact ⟨fun id hid => a ▸ hid, b, c, d⟩

theorem paframe_refl (s : GameState) : PAFrame s s := ⟨fun _ h => h, rfl, rfl, rfl⟩

theorem paframe_trans {s t u : GameState} (h1 : PAFrame s t) (h2 : PAFrame t u) :
    PAFrame s u := by
  obtain ⟨a1, b1, c1, d1⟩ := h1
  obtain ⟨a2, b2, c2, d2⟩ := h2
  exact ⟨fun id hid => a2 id (a1 id hid), b2.trans b1, c2.trans c1, d2.trans d1⟩

theorem cmdpres_of_paframe {s t : GameState} (h : PAFrame s t) : CmdPres s t := by
  obtain ⟨a, b, c, d⟩ := h
  refine ⟨a, d, ?_⟩
  rw [b, c]
  simp

/-! ## Frame lemmas for the verb handlers -/

theorem lookLoop_hframe (s : GameState) (target : String) :
    ∀ (items : List String) (t : GameState),
      resState (lookLoop s target items) = some t → HFrame s t := by
  intro items
  induction items with
  | nil =>
    intro t h
    simp only [lookLoop, resState, Option.some.injEq] at h
    subst h; exact ⟨rfl, rfl, rfl, rfl⟩
  | cons i rest ih =>
    intro t h
    simp only [lookLoop] at h
    split at h
    · exact ih t h
    · split at h
      · simp only [resState, Option.some.injEq] at h
        subst h; exact ⟨rfl, rfl, rfl, rfl⟩
      · exact ih t h

theorem handleLook_hframe (s : GameState) (args : List String) (t : GameState)
    (h : resState (handleLook s args) = some t) : HFrame s t := by
  simp only [handleLook] at h
  split at h
  · split at h
    · simp only [resState, Option.some.injEq] at h
      subst h; exact ⟨rfl, rfl, rfl, rfl⟩
    · simp only [resState, Option.some.injEq] at h
      subst h; exact ⟨rfl, rfl, rfl, rfl⟩
  · split at h
    · simp only [resState] at h; exact Option.noConfusion h
    · split at h
      · simp only [resState, Option.some.injEq] at h
        subst h; exact ⟨rfl, rfl, rfl, rfl⟩
      · exact lookLoop_hframe s _ _ t h

theorem takeLoop_hframe (s : GameState) (target : String) :
    ∀ (items : List String) (t : GameState),
      resState (takeLoop s target items) = some t → HFrame s t := by
  intro items
  induction items with
  | nil =>
    intro t h
    simp only [takeLoop, resState, Option.some.injEq] at h
    subst h; exact ⟨rfl, rfl, rfl, rfl⟩
  | cons i rest ih =>
    intro t h
    simp only [takeLoop] at h
    split at h
    · exact ih t h
    · split at h
      · split at h
        · simp only [resState, Option.some.injEq] at h
          subst h; exact ⟨rfl, rfl, rfl, rfl⟩
        · simp only [resState, Option.some.injEq] at h
          subst h; exact ⟨rfl, rfl, rfl, rfl⟩
      · exact ih t h

theorem handleTake_hframe (s : GameState) (args : List String) (t : GameState)
    (h : resState (handleTake s args) = some t) : HFrame s t := by
  simp only [handleTake] at h
  split at h
  · simp only [resState, Option.some.injEq] at h
    subst h; exact ⟨rfl, rfl, rfl, rfl⟩
  · split at h
    · simp only [resState] at h; exact Option.noConfusion h
    · exact takeLoop_hframe s _ _ t h

theorem useLoop_hframe (s : GameState) (target : String) :
    ∀ (items : List String) (t : GameState),
      resState (useLoop s target items) = some t → HFrame s t := by
  intro items
  induction items with
  | nil =>
    intro t h
    simp only [useLoop, resState, Option.some.injEq] at h
    subst h; exact ⟨rfl, rfl, rfl, rfl⟩
  | cons i rest ih =>
    intro t h
    simp only [useLoop] at h
    split at h
    · exact ih t h
    · split at h
      · simp only [resState, Option.some.injEq] at h
        subst h; exact ⟨rfl, rfl, rfl, rfl⟩
      · exact ih t h

theorem combFinish_hframe (s : GameState) (n1 n2 : String)
    (r1 r2 : Option (String × Item)) (t : GameState)
    (h : resState (combFinish s n1 n2 r1 r2) = some t) : HFrame s t := by
  simp only [combFinish] at h
  split at h
  · simp only [resState, Option.some.injEq] at h
    subst h; exact ⟨rfl, rfl, rfl, rfl⟩
  · split at h
    · simp only [resState, Option.some.injEq] at h
      subst h; exact ⟨rfl, rfl, rfl, rfl⟩
    · split at h
      · simp only [resState, Option.some.injEq] at h
        subst h; exact ⟨rfl, rfl, rfl, rfl⟩
      · split at h
        · simp only [resState, Option.some.injEq] at h
          subst h; exact ⟨rfl, rfl, rfl, rfl⟩
        · simp only [resState, Option.some.injEq] at h
          subst h; exact ⟨rfl, rfl, rfl, rfl⟩

theorem handleItemCombination_hframe (s : GameState) (n1 n2 : String) (t : GameState)
    (h : resState (handleItemCombination s n1 n2) = some t) : HFrame s t := by
  simp only [handleItemCombination] at h
  split at h
  · exact combFinish_hframe s n1 n2 _ _ t h
  · split at h
    · simp only [resState] at h; exact Option.noConfusion h
    · exact combFinish_hframe s n1 n2 _ _ t h

theorem handleUse_hframe (s : GameState) (args : List String) (t : GameState)
    (h : resState (handleUse s args) = some t) : HFrame s t := by
  simp only [handleUse] at h
  split at h
  · simp only [resState, Option.some.injEq] at h
    subst h; exact ⟨rfl, rfl, rfl, rfl⟩
  · split at h
    · split at h
      · exact handleItemCombination_hframe s _ _ t h
      · exact useLoop_hframe s _ _ t h
    · exact useLoop_hframe s _ _ t h

theorem moveLoop_hframe (s : GameState) (direction : String) :
    ∀ (exits : List String) (t : GameState),
      resState (moveLoop s direction exits) = some t → HFrame s t := by
  intro exits
  induction exits with
  | nil =>
    intro t h
    simp only [moveLoop, resState, Option.some.injEq] at h
    subst h; exact ⟨rfl, rfl, rfl, rfl⟩
  | cons e rest ih =>
    intro t h
    simp only [moveLoop] at h
    split at h
    · exact ih t h
    · split at h
      · split at h
        · simp only [resState, Option.some.injEq] at h
          subst h; exact ⟨rfl, rfl, rfl, rfl⟩
        · simp only [resState, Option.some.injEq] at h
          subst h; exact ⟨rfl, rfl, rfl, rfl⟩
      · exact ih t h

theorem handleMove_hframe (s : GameState) (args : List String) (t : GameState)
    (h : resState (handleMove s args) = some t) : HFrame s t := by
  simp only [handleMove] at h
  split at h
  · simp only [resState, Option.some.injEq] at h
    subst h; exact ⟨rfl, rfl, rfl, rfl⟩
  · split at h
    · simp only [resState] at h; exact Option.noConfusion h
    · exact moveLoop_hframe s _ _ t h

theorem handleInventory_hframe (s : GameState) (t : GameState)
    (h : resState (handleInventory s) = some t) : HFrame s t := by
  simp only [handleInventory] at h
  split at h
  · simp only [resState, Option.some.injEq] at h
    subst h; exact ⟨rfl, rfl, rfl, rfl⟩
  · simp only [resState, Option.some.injEq] at h
    subst h; exact ⟨rfl, rfl, rfl, rfl⟩

theorem handleHint_hframe (s : GameState) (args : List String) (t : GameState)
    (h : resState (handleHint s args) = some t) : HFrame s t := by
  simp only [handleHint] at h
  split at h
  · simp only [resState] at h; exact Option.noConfusion h
  · split at h
    · simp only [resState, Option.some.injEq] at h
      subst h; exact ⟨rfl, rfl, rfl, rfl⟩
    · simp only [resState, Option.some.injEq] at h
      subst h; exact ⟨rfl, rfl, rfl, rfl⟩

/-! ## Frame lemmas for the action engine -/

theorem applyEffect_hframe (s : GameState) (eff : ActionEffect) :
    HFrame s (applyEffect s eff) := by
  unfold applyEffect
  split_ifs <;> exact ⟨rfl, rfl, rfl, rfl⟩

theorem executeActionEffects_hframe (s : GameState) (effs : List ActionEffect) :
    HFrame s (executeActionEffects s effs) := by
  induction effs generalizing s with
  | nil => exact hframe_refl s
  | cons e rest ih =>
    exact hframe_trans (applyEffect_hframe s e) (ih (applyEffect s e))

theorem setMessage_hframe (a : Action) (s : GameState) : HFrame s (setMessage a s) := by
  unfold setMessage
  split <;> exact ⟨rfl, rfl, rfl, rfl⟩

theorem recordFired_paframe (a : Action) (s : GameState) : PAFrame s (recordFired a s) := by
  unfold recordFired
  split
  · exact ⟨fun id hid => List.mem_append_left _ hid, rfl, rfl, rfl⟩
  · exact paframe_refl s

theorem fireAction_paframe (s : GameState) (a : Action) : PAFrame s (fireAction s a) :=
  paframe_trans
    (paframe_of_hframe
      (hframe_trans (executeActionEffects_hframe s a.Effects)
        (setMessage_hframe a (executeActionEffects s a.Effects))))
    (recordFired_paframe a (setMessage a (executeActionEffects s a.Effects)))

theorem recordFired_records (a : Action) (s : GameState) (h : a.OneTimeOnly = true) :
    hasPerformedAction (recordFired a s) a.ID = true := by
  unfold recordFired
  rw [h]
  simp [hasPerformedAction, List.any_append]

theorem fireAction_records (s : GameState) (a : Action) (h : a.OneTimeOnly = true) :
    hasPerformedAction (fireAction s a) a.ID = true :=
  recordFired_records a _ h

theorem processOneAction_paframe (ty tgt w : String) (acc : GameState × Bool) (a : Action) :
    PAFrame acc.1 (processOneAction ty tgt w acc a).1 := by
  obtain ⟨s, b⟩ := acc
  simp only [processOneAction]
  split
  · split
    · exact paframe_refl s
    · split
      · exact fireAction_paframe s a
      · exact paframe_refl s
  · exact paframe_refl s

theorem foldl_processOneAction_paframe (ty tgt w : String) :
    ∀ (l : List Action) (acc : GameState × Bool),
      PAFrame acc.1 (l.foldl (processOneAction ty tgt w) acc).1 := by
  intro l
  induction l with
  | nil => intro acc; exact paframe_refl acc.1
  | cons a rest ih =>
    intro acc
    exact paframe_trans (processOneAction_paframe ty tgt w acc a)
      (ih (processOneAction ty tgt w acc a))

theorem processActions_paframe (s : GameState) (ty tgt w : String) :
    PAFrame s (processActions s ty tgt w).1 :=
  foldl_processOneAction_paframe ty tgt w s.Scenario.Actions (s, false)

theorem usePost_paframe (s : GameState) (target : String) : PAFrame s (usePost s target) := by
  unfold usePost
  split
  · split
    · exact processActions_paframe s _ _ _
    · exact paframe_refl s
  · exact processActions_paframe s _ _ _

theorem paframe_cmdpres_trans {s t u : GameState} (h1 : PAFrame s t) (h2 : CmdPres t u) :
    CmdPres s u := by
  obtain ⟨a1, b1, c1, d1⟩ := h1
  obtain ⟨a2, d2, w2⟩ := h2
  refine ⟨fun id hid => a2 id (a1 id hid), d2.trans d1, ?_⟩
  rw [w2, b1, c1]

/-- Transfer of `CmdPres` along a state that differs only in fields the
relation does not mention (the counter bump of `ProcessCommand`). -/
theorem cmdpres_shift {s s1 t : GameState}
    (h1 : s1.PerformedActions = s.PerformedActions)
    (h2 : s1.Scenario.Puzzles = s.Scenario.Puzzles)
    (h3 : s1.GameWon = s.GameWon)
    (h4 : s1.SolvedPuzzles = s.SolvedPuzzles)
    (h : CmdPres s1 t) : CmdPres s t := by
  obtain ⟨a, d, w⟩ := h
  refine ⟨fun id hid => a id (h1 ▸ hid), d.trans h2, ?_⟩
  rw [w, h3, h4]

/-! ## The solve handler and the win flag -/

theorem solveLoop_cmdpres (answer : String) :
    ∀ (pids : List String) (s t : GameState),
      resState (solveLoop s answer pids) = some t → CmdPres s t := by
  intro pids
  induction pids with
  | nil =>
    intro s t h
    simp only [solveLoop, resState, Option.some.injEq] at h
    subst h
    exact cmdpres_of_paframe (paframe_of_hframe ⟨rfl, rfl, rfl, rfl⟩)
  | cons pid rest ih =>
    intro s t h
    simp only [solveLoop] at h
    split at h
    · exact ih s t h
    · split at h
      · exact ih s t h
      · split at h
        · simp only [resState, Option.some.injEq] at h
          subst h
          exact cmdpres_of_paframe (paframe_of_hframe ⟨rfl, rfl, rfl, rfl⟩)
        · split at h
          · simp only [resState, Option.some.injEq] at h
            subst h
            split
            · next hwin =>
              refine ⟨fun id hid => hid, rfl, ?_⟩
              constructor
              · intro _
                refine Or.inr ⟨?_, ?_⟩
                · simp
                · exact hwin
              · intro _; rfl
            · next hnotwin =>
              refine ⟨fun id hid => hid, rfl, ?_⟩
              constructor
              · intro hg
                exact Or.inl hg
              · rintro (hg | ⟨_, hc⟩)
                · exact hg
                · exact absurd hc hnotwin
          · simp only [resState, Option.some.injEq] at h
            subst h
            exact cmdpres_of_paframe (paframe_of_hframe ⟨rfl, rfl, rfl, rfl⟩)

theorem handleSolve_cmdpres (s : GameState) (args : List String) (t : GameState)
    (h : resState (handleSolve s args) = some t) : CmdPres s t := by
  simp only [handleSolve] at h
  split at h
  · simp only [resState, Option.some.injEq] at h
    subst h
    exact cmdpres_of_paframe (paframe_of_hframe ⟨rfl, rfl, rfl, rfl⟩)
  · split at h
    · simp only [resState] at h; exact Option.noConfusion h
    · exact solveLoop_cmdpres _ _ s t h

/-! ## What an arbitrary command preserves -/

theorem dispatchVerb_cmdpres (s : GameState) (parts : List String) (t : GameState)
    (h : resState (dispatchVerb s parts) = some t) : CmdPres s t := by
  cases parts with
  | nil =>
    simp only [dispatchVerb, resState, Option.some.injEq] at h
    subst h
    exact cmdpres_of_paframe (paframe_refl s)
  | cons verb rest =>
    simp only [dispatchVerb] at h
    split at h
    · -- look / examine
      split at h
      · exact paframe_cmdpres_trans (processActions_paframe s "examine" _ "")
          (cmdpres_of_paframe (paframe_of_hframe (handleLook_hframe _ _ t h)))
      · simp only [resState, Option.some.injEq] at h
        subst h
        exact cmdpres_of_paframe (processActions_paframe s "examine" _ "")
    · split at h
      · -- take / get / pick
        split at h
        · exact Option.noConfusion h
        · next s2 hht =>
          simp only [resState, Option.some.injEq] at h
          subst h
          exact paframe_cmdpres_trans
            (paframe_of_hframe (handleTake_hframe s rest s2 (by rw [hht]; rfl)))
            (cmdpres_of_paframe (processActions_paframe s2 "take" _ ""))
        · next s2 m hht =>
          simp only [resState, Option.some.injEq] at h
          subst h
          exact paframe_cmdpres_trans
            (paframe_of_hframe (handleTake_hframe s rest s2 (by rw [hht]; rfl)))
            (cmdpres_of_paframe (processActions_paframe s2 "take" _ ""))
      · split at h
        · -- use
          split at h
          · exact Option.noConfusion h
          · next s2 hhu =>
            simp only [resState, Option.some.injEq] at h
            subst h
            exact paframe_cmdpres_trans
              (paframe_of_hframe (handleUse_hframe s rest s2 (by rw [hhu]; rfl)))
              (cmdpres_of_paframe (usePost_paframe s2 _))
          · next s2 m hhu =>
            simp only [resState, Option.some.injEq] at h
            subst h
            exact paframe_cmdpres_trans
              (paframe_of_hframe (handleUse_hframe s rest s2 (by rw [hhu]; rfl)))
              (cmdpres_of_paframe (usePost_paframe s2 _))
        · split at h
          · -- go / move / walk
            exact cmdpres_of_paframe (paframe_of_hframe (handleMove_hframe _ _ t h))
          · split at h
            · -- inventory
              exact cmdpres_of_paframe (paframe_of_hframe (handleInventory_hframe _ t h))
            · split at h
              · -- solve
                exact handleSolve_cmdpres _ _ t h
              · split at h
                · -- hint
                  exact cmdpres_of_paframe (paframe_of_hframe (handleHint_hframe _ _ t h))
                · -- unknown verb
                  simp only [resState, Option.some.injEq] at h
                  subst h
                  exact cmdpres_of_paframe (paframe_of_hframe ⟨rfl, rfl, rfl, rfl⟩)

theorem pc_cmdpres (s : GameState) (cmd : String) (t : GameState)
    (h : resState (ProcessCommand s cmd) = some t) : CmdPres s t := by
  unfold ProcessCommand at h
  refine cmdpres_shift ?_ ?_ ?_ ?_ (dispatchVerb_cmdpres _ _ t h) <;> rfl

/-! ## First-hit characterisations of the handler loops -/

theorem lookLoop_found (s : GameState) (target : String) :
    ∀ (items : List String) (itemID : String) (item : Item),
      items.find? (itemMatches s.Scenario target) = some itemID →
      GetItem s.Scenario itemID = some item →
      lookLoop s target items = .ok {s with LastResult := item.Description} := by
  intro items
  induction items with
  | nil => intro itemID item hf _; simp at hf
  | cons i rest ih =>
    intro itemID item hf hgi
    cases hm : itemMatches s.Scenario target i with
    | true =>
      rw [List.find?_cons_of_pos _ hm] at hf
      injection hf with hf
      subst hf
      have hm' := hm
      simp only [itemMatches, hgi] at hm'
      simp [lookLoop, hgi, hm']
    | false =>
      rw [List.find?_cons_of_neg _ (by simp [hm])] at hf
      cases hgi2 : GetItem s.Scenario i with
      | none =>
        simp only [lookLoop, hgi2]
        exact ih itemID item hf hgi
      | some item2 =>
        have hm' := hm
        simp only [itemMatches, hgi2] at hm'
        simp only [lookLoop, hgi2, hm']
        exact ih itemID item hf hgi

theorem lookLoop_notfound (s : GameState) (target : String) :
    ∀ (items : List String),
      items.find? (itemMatches s.Scenario target) = none →
      lookLoop s target items = .ok {s with LastResult := "You don\'t see that here."} := by
  intro items
  induction items with
  | nil => intro _; rfl
  | cons i rest ih =>
    intro hf
    rw [List.find?_cons] at hf
    cases hm : itemMatches s.Scenario target i with
    | true => rw [hm] at hf; simp at hf
    | false =>
      rw [hm] at hf
      cases hgi2 : GetItem s.Scenario i with
      | none =>
        simp only [lookLoop, hgi2]
        exact ih hf
      | some item2 =>
        have hm' := hm
        simp only [itemMatches, hgi2] at hm'
        simp only [lookLoop, hgi2, hm']
        exact ih hf

theorem takeLoop_found (s : GameState) (target : String) :
    ∀ (items : List String) (itemID : String) (item : Item),
      items.find? (itemMatches s.Scenario target) = some itemID →
      GetItem s.Scenario itemID = some item →
      takeLoop s target items =
        (if !HasItem s itemID then
          .ok {s with Inventory := s.Inventory ++ [itemID],
                      LastResult := "You take the " ++ item.Name ++ "."}
        else .ok {s with LastResult := "You already have that."}) := by
  intro items
  induction items with
  | nil => intro itemID item hf _; simp at hf
  | cons i rest ih =>
    intro itemID item hf hgi
    cases hm : itemMatches s.Scenario target i with
    | true =>
      rw [List.find?_cons_of_pos _ hm] at hf
      injection hf with hf
      subst hf
      have hm' := hm
      simp only [itemMatches, hgi] at hm'
      simp [takeLoop, hgi, hm']
    | false =>
      rw [List.find?_cons_of_neg _ (by simp [hm])] at hf
      cases hgi2 : GetItem s.Scenario i with
      | none =>
        simp only [takeLoop, hgi2]
        exact ih itemID item hf hgi
      | some item2 =>
        have hm' := hm
        simp only [itemMatches, hgi2] at hm'
        simp only [takeLoop, hgi2, hm']
        exact ih itemID item hf hgi

theorem moveLoop_found (s : GameState) (direction : String) :
    ∀ (exits : List String) (exitID : String) (exitRoom : Room),
      exits.find? (exitMatches s.Scenario direction) = some exitID →
      GetRoom s.Scenario exitID = some exitRoom →
      moveLoop s direction exits =
        (if exitRoom.Locked && (exitRoom.UnlockKey == "" || !HasItem s exitRoom.UnlockKey) then
          .ok {s with LastResult := "That way is locked."}
        else .ok {s with CurrentRoom := exitID,
                         LastResult := "You move to " ++ exitRoom.Name ++ "."}) := by
  intro exits
  induction exits with
  | nil => intro exitID exitRoom hf _; simp at hf
  | cons e rest ih =>
    intro exitID exitRoom hf hgr
    cases hm : exitMatches s.Scenario direction e with
    | true =>
      rw [List.find?_cons_of_pos _ hm] at hf
      injection hf with hf
      subst hf
      have hm' := hm
      simp only [exitMatches, hgr] at hm'
      simp [moveLoop, hgr, hm']
    | false =>
      rw [List.find?_cons_of_neg _ (by simp [hm])] at hf
      cases hgr2 : GetRoom s.Scenario e with
      | none =>
        simp only [moveLoop, hgr2]
        exact ih exitID exitRoom hf hgr
      | some room2 =>
        have hm' := hm
        simp only [exitMatches, hgr2] at hm'
        simp only [moveLoop, hgr2, hm']
        exact ih exitID exitRoom hf hgr

theorem solveLoop_found (s : GameState) (answer : String) :
    ∀ (pids : List String) (pid : String) (puzzle : Puzzle),
      pids.find? (solveCandidate s) = some pid →
      GetPuzzle s.Scenario pid = some puzzle →
      solveLoop s answer pids =
        (if !(puzzle.RequiredItems.all (fun r => HasItem s r)) then
          .ok {s with LastResult := "You don\'t have everything needed to solve this puzzle."}
        else if equalFold answer puzzle.Solution then
          .ok (if s.Scenario.Puzzles.length ≤ (s.SolvedPuzzles ++ [pid]).length then
                {s with SolvedPuzzles := s.SolvedPuzzles ++ [pid],
                        LastResult := "Correct! " ++ puzzle.Reward, GameWon := true}
              else {s with SolvedPuzzles := s.SolvedPuzzles ++ [pid],
                           LastResult := "Correct! " ++ puzzle.Reward})
        else .ok {s with LastResult := "That\'s not correct."}) := by
  intro pids
  induction pids with
  | nil => intro pid puzzle hf _; simp at hf
  | cons q rest ih =>
    intro pid puzzle hf hgp
    cases hm : solveCandidate s q with
    | true =>
      rw [List.find?_cons_of_pos _ hm] at hf
      injection hf with hf
      subst hf
      have hm' := hm
      simp [solveCandidate, hgp] at hm'
      simp only [solveLoop, hgp, hm']
      rfl
    | false =>
      rw [List.find?_cons_of_neg _ (by simp [hm])] at hf
      cases hgp2 : GetPuzzle s.Scenario q with
      | none =>
        simp only [solveLoop, hgp2]
        exact ih pid puzzle hf hgp
      | some puz2 =>
        have hm' := hm
        simp [solveCandidate, hgp2] at hm'
        simp only [solveLoop, hgp2, hm']
        exact ih pid puzzle hf hgp

theorem solveLoop_notfound (s : GameState) (answer : String) :
    ∀ (pids : List String),
      pids.find? (solveCandidate s) = none →
      solveLoop s answer pids =
        .ok {s with LastResult := "There\'s no puzzle here to solve."} := by
  intro pids
  induction pids with
  | nil => intro _; rfl
  | cons q rest ih =>
    intro hf
    rw [List.find?_cons] at hf
    cases hm : solveCandidate s q with
    | true => rw [hm] at hf; simp at hf
    | false =>
      rw [hm] at hf
      cases hgp2 : GetPuzzle s.Scenario q with
      | none =>
        simp only [solveLoop, hgp2]
        exact ih hf
      | some puz2 =>
        have hm' := hm
        simp [solveCandidate, hgp2] at hm'
        simp only [solveLoop, hgp2, hm']
        exact ih hf

/-! ## One-time-only actions -/

theorem processOneAction_skip (ty tgt w : String) (s : GameState) (b : Bool) (a : Action)
    (hone : a.OneTimeOnly = true) (hperf : hasPerformedAction s a.ID = true) :
    processOneAction ty tgt w (s, b) a = (s, b) := by
  simp only [processOneAction, hone, hperf, Bool.and_self]
  split <;> rfl

theorem processOneAction_records (ty tgt w : String) (s : GameState) (b : Bool) (a : Action)
    (hone : a.OneTimeOnly = true) (hmatch : matchesAction a ty tgt w = true)
    (hperf : hasPerformedAction s a.ID = false)
    (hcond : checkActionConditions s a.Conditions = true) :
    hasPerformedAction (processOneAction ty tgt w (s, b) a).1 a.ID = true := by
  simp only [processOneAction, hone, hperf, hmatch, hcond, Bool.and_false, if_true]
  simp only [Bool.false_eq_true, if_false]
  exact fireAction_records s a hone

/-! ## Inventory duplication -/

theorem not_mem_of_hasItem_false {s : GameState} {id : String}
    (h : HasItem s id = false) : id ∉ s.Inventory := by
  intro hmem
  have ht : HasItem s id = true := by
    simp only [HasItem, List.any_eq_true]
    exact ⟨id, hmem, by simp⟩
  rw [ht] at h
  cases h

theorem nodup_append_singleton {l : List String} {x : String}
    (h : l.Nodup) (hx : x ∉ l) : (l ++ [x]).Nodup := by
  rw [List.nodup_append]
  refine ⟨h, List.nodup_singleton x, ?_⟩
  intro a ha hax
  rw [List.mem_singleton] at hax
  exact hx (hax ▸ ha)

theorem mem_removeFirst (target : String) :
    ∀ (l : List String) (a : String), a ∈ removeFirst target l → a ∈ l := by
  intro l
  induction l with
  | nil => intro a h; simp [removeFirst] at h
  | cons x rest ih =>
    intro a h
    simp only [removeFirst] at h
    split at h
    · exact List.mem_cons_of_mem x h
    · rcases List.mem_cons.mp h with h1 | h2
      · exact h1 ▸ List.mem_cons_self x rest
      · exact List.mem_cons_of_mem x (ih a h2)

theorem nodup_removeFirst (target : String) :
    ∀ (l : List String), l.Nodup → (removeFirst target l).Nodup := by
  intro l
  induction l with
  | nil => intro _; simp [removeFirst]
  | cons x rest ih =>
    intro h
    rcases List.nodup_cons.mp h with ⟨hx, hrest⟩
    simp only [removeFirst]
    split
    · exact hrest
    · exact List.nodup_cons.mpr ⟨fun hmem => hx (mem_removeFirst target rest x hmem), ih hrest⟩

theorem takeLoop_nodup (s : GameState) (target : String) :
    ∀ (items : List String) (t : GameState),
      resState (takeLoop s target items) = some t →
      s.Inventory.Nodup → t.Inventory.Nodup := by
  intro items
  induction items with
  | nil =>
    intro t h hn
    simp only [takeLoop, resState, Option.some.injEq] at h
    subst h; exact hn
  | cons i rest ih =>
    intro t h hn
    simp only [takeLoop] at h
    split at h
    · exact ih t h hn
    · split at h
      · split at h
        · next hhas =>
          simp only [resState, Option.some.injEq] at h
          subst h
          exact nodup_append_singleton hn
            (not_mem_of_hasItem_false (by simpa using hhas))
        · simp only [resState, Option.some.injEq] at h
          subst h; exact hn
      · exact ih t h hn

theorem handleTake_nodup (s : GameState) (args : List String) (t : GameState)
    (h : resState (handleTake s args) = some t) (hn : s.Inventory.Nodup) :
    t.Inventory.Nodup := by
  simp only [handleTake] at h
  split at h
  · simp only [resState, Option.some.injEq] at h
    subst h; exact hn
  · split at h
    · simp only [resState] at h; exact Option.noConfusion h
    · exact takeLoop_nodup s _ _ t h hn

theorem applyEffect_nodup (s : GameState) (eff : ActionEffect)
    (hn : s.Inventory.Nodup) : (applyEffect s eff).Inventory.Nodup := by
  unfold applyEffect
  split_ifs with h1 h2 h3 h4 h5 h6
  · exact hn
  · exact hn
  · exact hn
  · exact nodup_append_singleton hn (not_mem_of_hasItem_false (by simpa using h5))
  · exact hn
  · exact nodup_removeFirst eff.Target s.Inventory hn
  · exact hn

theorem executeActionEffects_nodup (effs : List ActionEffect) :
    ∀ (s : GameState), s.Inventory.Nodup → (executeActionEffects s effs).Inventory.Nodup := by
  induction effs with
  | nil => intro s hn; exact hn
  | cons e rest ih =>
    intro s hn
    exact ih (applyEffect s e) (applyEffect_nodup s e hn)

theorem combFinish_nodup (s : GameState) (n1 n2 : String) (r1 r2 : Option (String × Item))
    (t : GameState) (h : resState (combFinish s n1 n2 r1 r2) = some t)
    (hn : s.Inventory.Nodup) (hlc : "lit_candle" ∉ s.Inventory) : t.Inventory.Nodup := by
  simp only [combFinish] at h
  split at h
  · simp only [resState, Option.some.injEq] at h
    subst h; exact hn
  · split at h
    · simp only [resState, Option.some.injEq] at h
      subst h; exact hn
    · split at h
      · simp only [resState, Option.some.injEq] at h
        subst h
        exact nodup_append_singleton hn hlc
      · split at h
        · simp only [resState, Option.some.injEq] at h
          subst h; exact hn
        · simp only [resState, Option.some.injEq] at h
          subst h; exact hn

theorem handleItemCombination_nodup (s : GameState) (n1 n2 : String) (t : GameState)
    (h : resState (handleItemCombination s n1 n2) = some t)
    (hn : s.Inventory.Nodup) (hlc : "lit_candle" ∉ s.Inventory) : t.Inventory.Nodup := by
  simp only [handleItemCombination] at h
  split at h
  · exact combFinish_nodup s n1 n2 _ _ t h hn hlc
  · split at h
    · simp only [resState] at h; exact Option.noConfusion h
    · exact combFinish_nodup s n1 n2 _ _ t h hn hlc

/-! ## Progressive hint eligibility -/

theorem hintTriggerSat_iff (s : GameState) (em : Int) (ctx : String) (t : HintTrigger) :
    hintTriggerSat s em ctx t = true ↔
      ((t.Typ = "failed_attempts" ∧ t.Threshold ≤ lookupFA s.FailedAttempts ctx) ∨
       (t.Typ = "time_spent" ∧ t.Threshold ≤ em) ∨
       (t.Typ = "commands_tried" ∧ t.Threshold ≤ s.CommandAttempts)) := by
  unfold hintTriggerSat
  split_ifs with h1 h2 h3
  · rw [beq_iff_eq] at h1
    rw [decide_eq_true_iff]
    constructor
    · intro hle; exact Or.inl ⟨h1, hle⟩
    · rintro (⟨_, hle⟩ | ⟨ht, _⟩ | ⟨ht, _⟩)
      · exact hle
      · rw [h1] at ht; exact absurd ht (by decide)
      · rw [h1] at ht; exact absurd ht (by decide)
  · rw [beq_iff_eq] at h2
    rw [decide_eq_true_iff]
    constructor
    · intro hle; exact Or.inr (Or.inl ⟨h2, hle⟩)
    · rintro (⟨ht, _⟩ | ⟨_, hle⟩ | ⟨ht, _⟩)
      · rw [h2] at ht; exact absurd ht (by decide)
      · exact hle
      · rw [h2] at ht; exact absurd ht (by decide)
  · rw [beq_iff_eq] at h3
    rw [decide_eq_true_iff]
    constructor
    · intro hle; exact Or.inr (Or.inr ⟨h3, hle⟩)
    · rintro (⟨ht, _⟩ | ⟨ht, _⟩ | ⟨_, hle⟩)
      · rw [h3] at ht; exact absurd ht (by decide)
      · rw [h3] at ht; exact absurd ht (by decide)
      · exact hle
  · rw [beq_iff_eq] at h1 h2 h3
    simp only [Bool.false_eq_true, false_iff]
    rintro (⟨ht, _⟩ | ⟨ht, _⟩ | ⟨ht, _⟩)
    · exact h1 ht
    · exact h2 ht
    · exact h3 ht

theorem shouldShowHint_iff (s : GameState) (em : Int) (h : ProgressiveHint) (room : Room)
    (hroom : GetRoom s.Scenario s.CurrentRoom = some room) :
    shouldShowHint s em h = some true ↔
      ((h.Context = s.CurrentRoom ∨
        ∃ pid ∈ room.Puzzles, h.Context = pid ∧ IsPuzzleSolved s pid = false) ∧
       ∃ t ∈ h.Triggers,
         ((t.Typ = "failed_attempts" ∧ t.Threshold ≤ lookupFA s.FailedAttempts h.Context) ∨
          (t.Typ = "time_spent" ∧ t.Threshold ≤ em) ∨
          (t.Typ = "commands_tried" ∧ t.Threshold ≤ s.CommandAttempts))) := by
  unfold shouldShowHint
  cases hctx : (h.Context == s.CurrentRoom) with
  | true =>
    have hctx2 : h.Context = s.CurrentRoom := beq_iff_eq.mp hctx
    simp only [hctx, if_true, Option.some.injEq]
    simp only [List.any_eq_true, hintTriggerSat_iff]
    constructor
    · rintro ⟨t, hmem, hsat⟩
      exact ⟨Or.inl hctx2, t, hmem, hsat⟩
    · rintro ⟨_, t, hmem, hsat⟩
      exact ⟨t, hmem, hsat⟩
  | false =>
    simp only [hctx, Bool.false_eq_true, if_false, hroom]
    cases hany : room.Puzzles.any (fun pid => h.Context == pid && !IsPuzzleSolved s pid) with
    | false =>
      simp only [Option.some.injEq, Bool.false_eq_true, false_iff]
      rintro ⟨hc | ⟨pid, hmem, heq, hsolved⟩, _⟩
      · rw [hc] at hctx; simp at hctx
      · rw [List.any_eq_false] at hany
        have := hany pid hmem
        rw [heq] at this
        simp [hsolved] at this
    | true =>
      simp only [Option.some.injEq]
      simp only [List.any_eq_true, hintTriggerSat_iff]
      constructor
      · rintro ⟨t, hmem, hsat⟩
        rw [List.any_eq_true] at hany
        obtain ⟨pid, hpmem, hpsat⟩ := hany
        simp only [Bool.and_eq_true, beq_iff_eq, Bool.not_eq_true'] at hpsat
        exact ⟨Or.inr ⟨pid, hpmem, hpsat.1, hpsat.2⟩, t, hmem, hsat⟩
      · rintro ⟨_, t, hmem, hsat⟩
        exact ⟨t, hmem, hsat⟩

theorem hintsLoop_mem (s : GameState) (em : Int) :
    ∀ (l : List ProgressiveHint) (hs : List String) (h : ProgressiveHint),
      hintsLoop s em l = some hs → h ∈ l → shouldShowHint s em h = some true →
      h.HintText ∈ hs := by
  intro l
  induction l with
  | nil => intro hs h _ hmem; cases hmem
  | cons hh rest ih =>
    intro hs h hloop hmem hshow
    simp only [hintsLoop] at hloop
    split at hloop
    · exact Option.noConfusion hloop
    · next b hb =>
      split at hloop
      · exact Option.noConfusion hloop
      · next hs2 hloop2 =>
        simp only [Option.some.injEq] at hloop
        subst hloop
        rcases List.mem_cons.mp hmem with heq | hmem2
        · subst heq
          rw [hshow] at hb
          injection hb with hb
          subst hb
          simp
        · have htail := ih hs2 h hloop2 hmem2 hshow
          split
          · exact List.mem_cons_of_mem _ htail
          · exact htail

/-! ## Claim theorems -/

/-- Claim C1: one-time-only actions fire at most once per session.  An
action whose id is already recorded is skipped by its loop iteration (for
any trigger type, target and with-item) without touching the state or the
fired flag; a one-time-only action that fires records its id; and the
performed-actions record only grows, both across one action-engine call
and across an arbitrary command. -/
theorem claim1_one_time_only :
    (∀ (ty tgt w : String) (s : GameState) (b : Bool) (a : Action),
       a.OneTimeOnly = true → hasPerformedAction s a.ID = true →
       processOneAction ty tgt w (s, b) a = (s, b)) ∧
    (∀ (ty tgt w : String) (s : GameState) (b : Bool) (a : Action),
       a.OneTimeOnly = true → matchesAction a ty tgt w = true →
       hasPerformedAction s a.ID = false → checkActionConditions s a.Conditions = true →
       hasPerformedAction (processOneAction ty tgt w (s, b) a).1 a.ID = true) ∧
    (∀ (s : GameState) (ty tgt w id : String),
       id ∈ s.PerformedActions → id ∈ (processActions s ty tgt w).1.PerformedActions) ∧
    (∀ (s : GameState) (cmd : String) (t : GameState),
       resState (ProcessCommand s cmd) = some t →
       ∀ id, id ∈ s.PerformedActions → id ∈ t.PerformedActions) :=
  ⟨processOneAction_skip, processOneAction_records,
   fun s ty tgt w id hid => (processActions_paframe s ty tgt w).1 id hid,
   fun s cmd t h id hid => (pc_cmdpres s cmd t h).1 id hid⟩

/-- Witness for C1: in the demonstration scenario, once `examine_desk` is
recorded, the action-engine iteration over it is the identity. -/
theorem claim1_witness :
    processOneAction "examine" "desk" "" (demoPerformed, false) demoDeskAction
      = (demoPerformed, false) :=
  claim1_one_time_only.1 "examine" "desk" "" demoPerformed false demoDeskAction
    (by decide) (by decide)

/-- Claim C2 counterexample: the compass is a visible room item and the
supplied target is a substring of its name, yet `look compass` answers
with the generic room-feature message (the room description mentions the
word compass), not with the item description. -/
theorem claim2_cex :
    GetRoom lookState.Scenario lookState.CurrentRoom = some lookStudy ∧
    "compass" ∈ lookStudy.Items ∧
    GetItem lookState.Scenario "compass" = some demoCompass ∧
    demoCompass.Hidden = false ∧
    containsSubstr (toLower demoCompass.Name) "compass" = true ∧
    (resState (ProcessCommand lookState "look compass")).map (fun t => t.LastResult)
      = some "You examine the compass more closely, but don\'t notice anything special." ∧
    "You examine the compass more closely, but don\'t notice anything special."
      ≠ demoCompass.Description := by decide

/-- Claim C2 (amended): when the target occurs in the (lowercased) room
description, `look <target>` answers with the generic examine message;
otherwise the first non-hidden resolving room item whose name contains the
target yields exactly its description, and when there is none the result
is the not-found message (hidden items never match). -/
theorem claim2_look_amended (s : GameState) (args : List String) (room : Room)
    (hargs : args ≠ [])
    (hroom : GetRoom s.Scenario s.CurrentRoom = some room) :
    (containsSubstr (toLower room.Description) (toLower (" ".intercalate args)) = true →
       handleLook s args = .ok {s with LastResult :=
         "You examine the " ++ (" ".intercalate args) ++
         " more closely, but don\'t notice anything special."}) ∧
    (containsSubstr (toLower room.Description) (toLower (" ".intercalate args)) = false →
       (∀ (itemID : String) (item : Item),
          room.Items.find? (itemMatches s.Scenario (" ".intercalate args)) = some itemID →
          GetItem s.Scenario itemID = some item →
          handleLook s args = .ok {s with LastResult := item.Description}) ∧
       (room.Items.find? (itemMatches s.Scenario (" ".intercalate args)) = none →
          handleLook s args = .ok {s with LastResult := "You don\'t see that here."})) := by
  have hne : args.isEmpty = false := by
    cases args with
    | nil => exact absurd rfl hargs
    | cons a l => rfl
  constructor
  · intro hdesc
    simp only [handleLook, hne, Bool.false_eq_true, if_false, hroom, hdesc, if_true]
  · intro hdesc
    constructor
    · intro itemID item hfind hget
      simp only [handleLook, hne, Bool.false_eq_true, if_false, hroom, hdesc]
      exact lookLoop_found s _ room.Items itemID item hfind hget
    · intro hfind
      simp only [handleLook, hne, Bool.false_eq_true, if_false, hroom, hdesc]
      exact lookLoop_notfound s _ room.Items hfind

/-- Witness for the amended C2: in the demonstration study (whose
description does not mention the compass) `look compass` yields exactly
the compass description. -/
theorem claim2_witness :
    handleLook demoState ["compass"] =
      .ok {demoState with LastResult := demoCompass.Description} :=
  ((claim2_look_amended demoState ["compass"] demoStudy (by simp) (by decide)).2
    (by decide)).1 "compass" demoCompass (by decide) (by decide)

/-- Claim C3 counterexample: from a duplicate-free inventory already
holding the lit candle, `use matches with candle` appends `lit_candle`
again, so the inventory holds it twice. -/
theorem claim3_cex :
    candleState.Inventory.Nodup ∧
    (resState (ProcessCommand candleState "use matches with candle")).map
      (fun t => t.Inventory) = some ["matches", "candle", "lit_candle", "lit_candle"] ∧
    ¬ (["matches", "candle", "lit_candle", "lit_candle"] : List String).Nodup := by decide

/-- Claim C3 (amended): the take handler and the action-engine effects
(including `add_inventory`) preserve a duplicate-free inventory; the
built-in combination handler preserves it only when `lit_candle` is not
already held, because its hard-coded matches+candle rule appends
`lit_candle` without an ownership check. -/
theorem claim3_nodup_amended :
    (∀ (s : GameState) (args : List String) (t : GameState),
       resState (handleTake s args) = some t → s.Inventory.Nodup → t.Inventory.Nodup) ∧
    (∀ (s : GameState) (effs : List ActionEffect),
       s.Inventory.Nodup → (executeActionEffects s effs).Inventory.Nodup) ∧
    (∀ (s : GameState) (n1 n2 : String) (t : GameState),
       resState (handleItemCombination s n1 n2) = some t →
       s.Inventory.Nodup → "lit_candle" ∉ s.Inventory → t.Inventory.Nodup) :=
  ⟨handleTake_nodup, fun s effs => executeActionEffects_nodup effs s,
   handleItemCombination_nodup⟩

/-- Witness for the amended C3: taking an already-held item keeps the
inventory duplicate-free. -/
theorem claim3_witness :
    (({demoState with LastResult := "You already have that."} : GameState)).Inventory.Nodup :=
  claim3_nodup_amended.1 demoState ["compass"]
    {demoState with LastResult := "You already have that."} (by decide) (by decide)

/-- Claim C4: on a world definition where the current-room id does not
resolve, `look <arg>` dereferences the nil room pointer (a panic), and
`look` with no argument propagates the lookup error to the caller; the
unresolved reference is not treated as a skippable not-found. -/
theorem claim4_dangling_room_panics :
    ProcessCommand danglingState "look desk" = .panicked ∧
    ProcessCommand danglingState "look" =
      .gerr {danglingState with
              Moves := danglingState.Moves + 1,
              CommandAttempts := danglingState.CommandAttempts + 1,
              LastAction := "look"} "room nowhere not found" := by decide

/-- Claim C5: the game-won flag is monotonic, and after any command it is
true exactly when it was already true or the command solved a new puzzle
that made the solved count reach the scenario puzzle count. -/
theorem claim5_win_monotonic (s : GameState) (cmd : String) (t : GameState)
    (h : resState (ProcessCommand s cmd) = some t) :
    (s.GameWon = true → t.GameWon = true) ∧
    (t.GameWon = true ↔ (s.GameWon = true ∨
       (s.SolvedPuzzles.length < t.SolvedPuzzles.length ∧
        t.Scenario.Puzzles.length ≤ t.SolvedPuzzles.length))) := by
  have hc := pc_cmdpres s cmd t h
  exact ⟨fun hg => hc.2.2.mpr (Or.inl hg), hc.2.2⟩

/-- State of the demonstration session after a plain `look`. -/
def demoAfterLook : GameState :=
  {demoState with Moves := demoState.Moves + 1,
                  CommandAttempts := demoState.CommandAttempts + 1,
                  LastAction := "look", LastResult := "A quiet study."}

/-- Witness for C5 at the concrete `look` command. -/
theorem claim5_witness :
    (demoState.GameWon = true → demoAfterLook.GameWon = true) ∧
    (demoAfterLook.GameWon = true ↔ (demoState.GameWon = true ∨
       (demoState.SolvedPuzzles.length < demoAfterLook.SolvedPuzzles.length ∧
        demoAfterLook.Scenario.Puzzles.length ≤ demoAfterLook.SolvedPuzzles.length))) :=
  claim5_win_monotonic demoState "look" demoAfterLook (by decide)

/-- Claim C6: a `go` to a locked room leaves the current room unchanged
and answers the locked message when the declared unlock key is absent (or
none is declared); with the key held, the current room becomes exactly the
target room id. -/
theorem claim6_go_locked (s : GameState) (args : List String) (room exitRoom : Room)
    (exitID : String)
    (hargs : args ≠ [])
    (hroom : GetRoom s.Scenario s.CurrentRoom = some room)
    (hfind : room.Exits.find? (exitMatches s.Scenario (" ".intercalate args)) = some exitID)
    (hexit : GetRoom s.Scenario exitID = some exitRoom)
    (hlocked : exitRoom.Locked = true) :
    ((exitRoom.UnlockKey = "" ∨ HasItem s exitRoom.UnlockKey = false) →
       handleMove s args = .ok {s with LastResult := "That way is locked."}) ∧
    (exitRoom.UnlockKey ≠ "" → HasItem s exitRoom.UnlockKey = true →
       handleMove s args = .ok {s with
         CurrentRoom := exitID,
         LastResult := "You move to " ++ exitRoom.Name ++ "."}) := by
  have hne : args.isEmpty = false := by
    cases args with
    | nil => exact absurd rfl hargs
    | cons a l => rfl
  have hml := moveLoop_found s (" ".intercalate args) room.Exits exitID exitRoom hfind hexit
  constructor
  · intro hkey
    simp only [handleMove, hne, Bool.false_eq_true, if_false, hroom]
    rw [hml]
    have hcond : (exitRoom.Locked &&
        (exitRoom.UnlockKey == "" || !HasItem s exitRoom.UnlockKey)) = true := by
      rcases hkey with hk | hk
      · simp [hlocked, hk]
      · simp [hlocked, hk]
    rw [if_pos hcond]
  · intro hk1 hk2
    simp only [handleMove, hne, Bool.false_eq_true, if_false, hroom]
    rw [hml]
    have hcond : (exitRoom.Locked &&
        (exitRoom.UnlockKey == "" || !HasItem s exitRoom.UnlockKey)) = false := by
      simp [hlocked, hk1, hk2]
    rw [hcond]
    simp only [Bool.false_eq_true, if_false]

/-- Witness for C6: without the small key, `go vault` from the study
leaves the player in the study with the locked message. -/
theorem claim6_witness :
    handleMove demoState ["vault"] = .ok {demoState with LastResult := "That way is locked."} :=
  (claim6_go_locked demoState ["vault"] demoStudy demoVault "vault" (by simp) (by decide)
    (by decide) (by decide) (by decide)).1 (Or.inr (by decide))

/-- Claim C7: the solve handler acts on the first resolving unsolved
puzzle of the current room: missing required items give the
needed-items message without trying later puzzles; a case-insensitive
solution match appends the puzzle id to the solved set and appends the
reward to the result (setting the win flag when the count reaches the
total); a mismatch gives the not-correct message; and a room without an
unsolved puzzle gives the no-puzzle message. -/
theorem claim7_solve (s : GameState) (args : List String) (room : Room)
    (hargs : args ≠ [])
    (hroom : GetRoom s.Scenario s.CurrentRoom = some room) :
    (room.Puzzles.find? (solveCandidate s) = none →
       handleSolve s args = .ok {s with LastResult := "There\'s no puzzle here to solve."}) ∧
    (∀ (pid : String) (puzzle : Puzzle),
       room.Puzzles.find? (solveCandidate s) = some pid →
       GetPuzzle s.Scenario pid = some puzzle →
       (puzzle.RequiredItems.all (fun r => HasItem s r) = false →
          handleSolve s args = .ok {s with LastResult :=
            "You don\'t have everything needed to solve this puzzle."}) ∧
       (puzzle.RequiredItems.all (fun r => HasItem s r) = true →
          (equalFold (" ".intercalate args) puzzle.Solution = true →
             handleSolve s args = .ok
               (if s.Scenario.Puzzles.length ≤ (s.SolvedPuzzles ++ [pid]).length then
                 {s with SolvedPuzzles := s.SolvedPuzzles ++ [pid],
                         LastResult := "Correct! " ++ puzzle.Reward, GameWon := true}
               else {s with SolvedPuzzles := s.SolvedPuzzles ++ [pid],
                            LastResult := "Correct! " ++ puzzle.Reward})) ∧
          (equalFold (" ".intercalate args) puzzle.Solution = false →
             handleSolve s args = .ok {s with LastResult := "That\'s not correct."}))) := by
  have hne : args.isEmpty = false := by
    cases args with
    | nil => exact absurd rfl hargs
    | cons a l => rfl
  constructor
  · intro hfind
    simp only [handleSolve, hne, Bool.false_eq_true, if_false, hroom]
    exact solveLoop_notfound s _ room.Puzzles hfind
  · intro pid puzzle hfind hget
    have hsl := solveLoop_found s (" ".intercalate args) room.Puzzles pid puzzle hfind hget
    refine ⟨?_, fun hall => ⟨?_, ?_⟩⟩
    · intro hmiss
      simp only [handleSolve, hne, Bool.false_eq_true, if_false, hroom]
      rw [hsl, if_pos (by simp [hmiss])]
    · intro heq
      simp only [handleSolve, hne, Bool.false_eq_true, if_false, hroom]
      rw [hsl, if_neg (by simp [hall]), if_pos heq]
    · intro hneq
      simp only [handleSolve, hne, Bool.false_eq_true, if_false, hroom]
      rw [hsl, if_neg (by simp [hall]), if_neg (by simp [hneq])]

/-- Witness for C7: solving the first demonstration puzzle with the right
answer while holding the compass. -/
theorem claim7_witness :
    handleSolve demoState ["twelve"] = .ok
      (if demoState.Scenario.Puzzles.length ≤ (demoState.SolvedPuzzles ++ ["p1"]).length then
        {demoState with SolvedPuzzles := demoState.SolvedPuzzles ++ ["p1"],
                        LastResult := "Correct! " ++ demoP1.Reward, GameWon := true}
      else {demoState with SolvedPuzzles := demoState.SolvedPuzzles ++ ["p1"],
                           LastResult := "Correct! " ++ demoP1.Reward}) :=
  (((claim7_solve demoState ["twelve"] demoStudy (by simp) (by decide)).2
    "p1" demoP1 (by decide) (by decide)).2 (by decide)).1 (by decide)

/-- Claim C8: a progressive hint is eligible exactly when its context is
the current room or an unsolved puzzle of the current room and one of its
triggers is satisfied with a greater-or-equal comparison (failed attempts
for that context, elapsed minutes, or the global command counter); every
eligible hint text appears in the eligible-hints result. -/
theorem claim8_hint_eligibility (s : GameState) (em : Int) (h : ProgressiveHint)
    (room : Room)
    (hroom : GetRoom s.Scenario s.CurrentRoom = some room) :
    (shouldShowHint s em h = some true ↔
      ((h.Context = s.CurrentRoom ∨
        ∃ pid ∈ room.Puzzles, h.Context = pid ∧ IsPuzzleSolved s pid = false) ∧
       ∃ t ∈ h.Triggers,
         ((t.Typ = "failed_attempts" ∧ t.Threshold ≤ lookupFA s.FailedAttempts h.Context) ∨
          (t.Typ = "time_spent" ∧ t.Threshold ≤ em) ∨
          (t.Typ = "commands_tried" ∧ t.Threshold ≤ s.CommandAttempts)))) ∧
    (∀ (hs : List String), GetProgressiveHints s em = some hs →
       h ∈ s.Scenario.ProgressiveHints → shouldShowHint s em h = some true →
       h.HintText ∈ hs) :=
  ⟨shouldShowHint_iff s em h room hroom,
   fun hs hl hmem hshow => hintsLoop_mem s em _ hs h hl hmem hshow⟩

/-- Demonstration state at the third command. -/
def hintState : GameState := {demoState with CommandAttempts := 3}

/-- Witness for C8: with the global command counter at 3, the
threshold-3 commands-tried hint for the study is eligible. -/
theorem claim8_witness :
    shouldShowHint hintState 0 demoHint = some true :=
  (claim8_hint_eligibility hintState 0 demoHint demoStudy (by decide)).1.mpr
    ⟨Or.inl (by decide),
     ⟨{ Typ := "commands_tried", Threshold := 3 }, by decide,
      Or.inr (Or.inr ⟨rfl, by decide⟩)⟩⟩

/-- Claim C9 counterexample: after a successful solve, the puzzle id is in
the Game State solved-set while the puzzle record of the World Definition
still carries a false Solved flag, so the claimed equivalence fails. -/
theorem claim9_cex :
    (resState (ProcessCommand demoState "solve twelve")).map
      (fun t => (IsPuzzleSolved t "p1", (GetPuzzle t.Scenario "p1").map Puzzle.Solved))
      = some (true, some false) := by decide

/-- Claim C9 (amended): no command ever writes a puzzle record — the World
Definition puzzle list, including every Solved flag, is unchanged by every
command; only the Game State solved-set tracks solving. -/
theorem claim9_flags_frozen (s : GameState) (cmd : String) (t : GameState)
    (h : resState (ProcessCommand s cmd) = some t) :
    t.Scenario.Puzzles = s.Scenario.Puzzles :=
  (pc_cmdpres s cmd t h).2.1

/-- Witness for the amended C9 at the concrete `look` command. -/
theorem claim9_witness :
    demoAfterLook.Scenario.Puzzles = demoState.Scenario.Puzzles :=
  claim9_flags_frozen demoState "look" demoAfterLook (by decide)

/-- Claim C10: a successful take only appends the item id to the inventory
(and sets the result text); the room item list and the Hidden flag are
untouched, and repeating the take answers the already-owned message. -/
theorem claim10_take_frame (s : GameState) (args : List String) (room : Room)
    (itemID : String) (item : Item)
    (hargs : args ≠ [])
    (hroom : GetRoom s.Scenario s.CurrentRoom = some room)
    (hfind : room.Items.find? (itemMatches s.Scenario (" ".intercalate args)) = some itemID)
    (hget : GetItem s.Scenario itemID = some item)
    (hnew : HasItem s itemID = false) :
    handleTake s args = .ok {s with
      Inventory := s.Inventory ++ [itemID],
      LastResult := "You take the " ++ item.Name ++ "."} ∧
    handleTake {s with
      Inventory := s.Inventory ++ [itemID],
      LastResult := "You take the " ++ item.Name ++ "."} args
      = .ok {s with
          Inventory := s.Inventory ++ [itemID],
          LastResult := "You already have that."} := by
  have hne : args.isEmpty = false := by
    cases args with
    | nil => exact absurd rfl hargs
    | cons a l => rfl
  constructor
  · simp only [handleTake, hne, Bool.false_eq_true, if_false, hroom]
    rw [takeLoop_found s _ room.Items itemID item hfind hget, if_pos (by simp [hnew])]
  · simp only [handleTake, hne, Bool.false_eq_true, if_false, hroom]
    have hhas : HasItem {s with
        Inventory := s.Inventory ++ [itemID],
        LastResult := "You take the " ++ item.Name ++ "."} itemID = true := by
      simp [HasItem]
    rw [takeLoop_found {s with
          Inventory := s.Inventory ++ [itemID],
          LastResult := "You take the " ++ item.Name ++ "."}
        (" ".intercalate args) room.Items itemID item hfind hget]
    rw [if_neg (by simp [hhas])]

/-- Demonstration state with an empty inventory. -/
def takeState : GameState := {demoState with Inventory := []}

/-- Witness for C10: taking the compass from an empty inventory, then
taking it again. -/
theorem claim10_witness :
    handleTake takeState ["compass"] =
      .ok {takeState with
        Inventory := takeState.Inventory ++ ["compass"],
        LastResult := "You take the " ++ demoCompass.Name ++ "."} ∧
    handleTake {takeState with
      Inventory := takeState.Inventory ++ ["compass"],
      LastResult := "You take the " ++ demoCompass.Name ++ "."} ["compass"]
      = .ok {takeState with
          Inventory := takeState.Inventory ++ ["compass"],
          LastResult := "You already have that."} :=
  claim10_take_frame takeState ["compass"] demoStudy "compass" demoCompass
    (by simp) (by decide) (by decide) (by decide) (by decide)

end GoEscape
